import Mathlib

/-!
Shallow embedding of the fam-bam story-session module.

The repository stores one "story session" document per session id in a
document store.  The session-management module normalizes player lists,
advances the turn index, and maintains a denormalized `playerIds`
membership field.  Two variants of the module exist in the source: the
current one (with the `playerIds` field) and the one in
`src/lib/story-session.ts` (without it); the latter is embedded in the
`StorySessionLib` namespace below.

Numbers are embedded as `Int` (JS numbers used as array indices); the JS
remainder operator `%` is `Int.tmod` (truncation toward zero), and
`Math.min` is `min` on `Int`.  Document fields that may be absent are
`Option`s, and a Firestore merge-write is `applyMerge`.  `updatedAt` is an
opaque server timestamp, modelled as `Option Unit` (present or absent).
-/

/-- A player, as stored in a session document: `{ id, name }`. -/
structure Player where
  id : String
  name : String
  deriving DecidableEq, Repr

/-- The character class removed by the JS `String.prototype.trim`:
ASCII whitespace, NBSP, the Unicode space separators, line and paragraph
separators, and the BOM. -/
def isJsWs (c : Char) : Bool :=
  let n := c.toNat
  n == 9 || n == 10 || n == 11 || n == 12 || n == 13 || n == 32 ||
    n == 160 || n == 5760 || (decide (8192 ≤ n) && decide (n ≤ 8202)) ||
    n == 8232 || n == 8233 || n == 8239 || n == 8287 || n == 12288 || n == 65279

/-- JS `trim` on a character list: drop whitespace from both ends. -/
def jsTrimList (l : List Char) : List Char :=
  ((l.dropWhile isJsWs).reverse.dropWhile isJsWs).reverse

/-- JS `String.prototype.trim`. -/
def jsTrim (s : String) : String :=
  String.mk (jsTrimList s.toList)

/-- Embedding of `normalizePlayers` from the session module: drop players whose `id` is
empty or whose trimmed `name` is empty, store names trimmed, and clamp the
active index with `Math.min(activeIndex, cleaned.length - 1)` (or `0` when
the cleaned list is empty). -/
def normalizePlayers (players : List Player) (activeIndex : Int) :
    List Player × Int :=
  let cleaned := (players.filter fun p => p.id != "" && jsTrim p.name != "").map
    fun p => { p with name := jsTrim p.name }
  let clampedIndex : Int :=
    if cleaned.length == 0 then 0 else min activeIndex ((cleaned.length : Int) - 1)
  (cleaned, clampedIndex)

/-- Embedding of `Array.from(new Set(l))`: deduplicate keeping first occurrences. -/
def jsSetOfList (seen : List String) : List String → List String
  | [] => []
  | x :: xs => if x ∈ seen then jsSetOfList seen xs else x :: jsSetOfList (x :: seen) xs

/-- Embedding of `mergePlayerIds` from the session module:
`Array.from(new Set(players.map(p => p.id).filter(Boolean)))`. -/
def mergePlayerIds (players : List Player) : List String :=
  jsSetOfList [] ((players.map Player.id).filter fun s => s != "")

/-- A stored session document.  Every field may be absent (legacy
documents lack `playerIds`; merge-writes can omit fields). -/
structure StorySessionDoc where
  players : Option (List Player)
  storyWords : Option (List String)
  activePlayerIndex : Option Int
  playerIds : Option (List String)
  updatedAt : Option Unit
  deriving DecidableEq, Repr

/-- Embedding of `emptySession`: `{ players: [], storyWords: [], activePlayerIndex: 0 }`
(no `playerIds`, no `updatedAt`). -/
def emptySession : StorySessionDoc :=
  { players := some [], storyWords := some [], activePlayerIndex := some 0,
    playerIds := none, updatedAt := none }

/-- One field of a merge-write: a field present in the payload overwrites,
an absent one keeps the stored value. -/
def mergeField (new old : Option α) : Option α :=
  match new with
  | some v => some v
  | none => old

/-- Firestore `set(ref, payload, { merge: true })`: on an absent document
the payload becomes the document; on a present one it overwrites exactly
the payload's present fields. -/
def applyMerge (mdoc : Option StorySessionDoc) (payload : StorySessionDoc) :
    StorySessionDoc :=
  match mdoc with
  | none => payload
  | some d =>
    { players := mergeField payload.players d.players,
      storyWords := mergeField payload.storyWords d.storyWords,
      activePlayerIndex := mergeField payload.activePlayerIndex d.activePlayerIndex,
      playerIds := mergeField payload.playerIds d.playerIds,
      updatedAt := mergeField payload.updatedAt d.updatedAt }

/-- The upsert inside `addPlayerToSession`: `findIndex` on the id, replace
in place when found (`nextPlayers[existingIndex] = player`), else `push`. -/
def upsertPlayer (ps : List Player) (player : Player) : List Player :=
  match ps.findIdx? fun p => p.id == player.id with
  | some existingIndex => ps.set existingIndex player
  | none => ps ++ [player]

/-- Embedding of `addPlayerToSession`: inside the transaction, read the document
(defaulting to `emptySession`), upsert the player, renormalize, recompute
`playerIds`, and merge-write `{...data, players, playerIds,
activePlayerIndex, updatedAt}`. -/
def addPlayerToSession (mdoc : Option StorySessionDoc) (player : Player) :
    StorySessionDoc :=
  let data := mdoc.getD emptySession
  let nextPlayers := upsertPlayer (data.players.getD []) player
  let norm := normalizePlayers nextPlayers (data.activePlayerIndex.getD 0)
  applyMerge mdoc
    { players := some norm.1, storyWords := data.storyWords,
      activePlayerIndex := some norm.2,
      playerIds := some (mergePlayerIds norm.1), updatedAt := some () }

/-- Embedding of `addWordToSession`: inside the transaction, normalize the stored
players and index, append `word.trim()` to `storyWords`, advance the index
with `(activeIndex + 1) % players.length` (JS remainder) or keep `0` when
there are no players, and merge-write the result. -/
def addWordToSession (mdoc : Option StorySessionDoc) (word : String) :
    StorySessionDoc :=
  let data := mdoc.getD emptySession
  let norm := normalizePlayers (data.players.getD []) (data.activePlayerIndex.getD 0)
  let nextWords := (data.storyWords.getD []) ++ [jsTrim word]
  let nextActiveIndex : Int :=
    if norm.1.length == 0 then 0 else Int.tmod (norm.2 + 1) (norm.1.length : Int)
  applyMerge mdoc
    { players := some norm.1, storyWords := some nextWords,
      activePlayerIndex := some nextActiveIndex,
      playerIds := some (mergePlayerIds norm.1), updatedAt := some () }

/-- Embedding of `resetSessionStory`: a merge-write of `{ storyWords: [],
activePlayerIndex: 0, playerIds: mergePlayerIds([]), updatedAt }`; the
`players` field is not in the payload. -/
def resetSessionStory (mdoc : Option StorySessionDoc) : StorySessionDoc :=
  applyMerge mdoc
    { players := none, storyWords := some [], activePlayerIndex := some 0,
      playerIds := some (mergePlayerIds []), updatedAt := some () }

/-- A seed for `ensureSessionExists`: `Partial<StorySessionState>`. -/
structure SessionSeed where
  players : Option (List Player)
  storyWords : Option (List String)
  activePlayerIndex : Option Int
  playerIds : Option (List String)
  deriving DecidableEq, Repr

/-- The write `ensureSessionExists` performs: `none` when the document
already exists; otherwise the seed spread over `emptySession`, with
`playerIds` recomputed from the seed's players and a timestamp. -/
def ensureWrite (mdoc : Option StorySessionDoc) (seed : SessionSeed) :
    Option StorySessionDoc :=
  match mdoc with
  | some _ => none
  | none =>
    let defPlayers := seed.players.getD []
    some { players := some defPlayers,
           storyWords := some (seed.storyWords.getD []),
           activePlayerIndex := some (seed.activePlayerIndex.getD 0),
           playerIds := some (mergePlayerIds defPlayers),
           updatedAt := some () }

/-- Embedding of `ensureSessionExists` as a state transform on the stored document. -/
def ensureSessionExists (mdoc : Option StorySessionDoc) (seed : SessionSeed) :
    Option StorySessionDoc :=
  match ensureWrite mdoc seed with
  | some d => some d
  | none => mdoc

/-- The normalized view delivered to `subscribeToSession` callbacks. -/
structure StorySessionView where
  players : List Player
  storyWords : List String
  activePlayerIndex : Int
  playerIds : List String
  deriving DecidableEq, Repr

/-- The view built inside the `onSnapshot` callback of
`subscribeToSession`. -/
def sessionView (data : StorySessionDoc) : StorySessionView :=
  let norm := normalizePlayers (data.players.getD []) (data.activePlayerIndex.getD 0)
  { players := norm.1, storyWords := data.storyWords.getD [],
    activePlayerIndex := norm.2, playerIds := mergePlayerIds norm.1 }

/-- What a snapshot delivery emits: nothing when the document is absent,
else the normalized view. -/
def subscribeEmit (mdoc : Option StorySessionDoc) : Option StorySessionView :=
  mdoc.map sessionView

/-- The record produced by `formatSessionDoc` (and by `findSession`). -/
structure SessionListing where
  id : String
  players : List Player
  storyWords : List String
  activePlayerIndex : Int
  deriving DecidableEq, Repr

/-- Embedding of `formatSessionDoc`: normalize a (doc id, document) pair into a
listing. -/
def formatSessionDoc (e : String × StorySessionDoc) : SessionListing :=
  let norm := normalizePlayers (e.2.players.getD []) (e.2.activePlayerIndex.getD 0)
  { id := e.1, players := norm.1, storyWords := e.2.storyWords.getD [],
    activePlayerIndex := norm.2 }

/-- Embedding of `findSession`: `null` when absent, else the formatted document. -/
def findSession (sessionId : String) (mdoc : Option StorySessionDoc) :
    Option SessionListing :=
  mdoc.map fun data => formatSessionDoc (sessionId, data)

/-- Embedding of `getSessionsForUser`: the `array-contains` query on `playerIds`
(a document without the field never matches), falling back to a full scan
filtered on the normalized players when the query returns nothing. -/
def getSessionsForUser (store : List (String × StorySessionDoc))
    (userId : String) : List SessionListing :=
  let indexed :=
    (store.filter fun e => (e.2.playerIds.getD []).contains userId).map formatSessionDoc
  if indexed.length == 0 then
    (store.map formatSessionDoc).filter fun s => s.players.any fun p => p.id == userId
  else indexed

namespace StorySessionLib

/-- A stored document of the `src/lib/story-session.ts` variant: no
`playerIds` field. -/
structure LegacyDoc where
  players : Option (List Player)
  storyWords : Option (List String)
  activePlayerIndex : Option Int
  updatedAt : Option Unit
  deriving DecidableEq, Repr

/-- Embedding of `emptySession` of the lib variant. -/
def emptySession : LegacyDoc :=
  { players := some [], storyWords := some [], activePlayerIndex := some 0,
    updatedAt := none }

/-- Embedding of `normalizePlayers` of the lib variant (textually the same function). -/
def normalizePlayers (players : List Player) (activeIndex : Int) :
    List Player × Int :=
  let cleaned := (players.filter fun p => p.id != "" && jsTrim p.name != "").map
    fun p => { p with name := jsTrim p.name }
  let clampedIndex : Int :=
    if cleaned.length == 0 then 0 else min activeIndex ((cleaned.length : Int) - 1)
  (cleaned, clampedIndex)

/-- Merge-write semantics for the lib variant's documents. -/
def applyMerge (mdoc : Option LegacyDoc) (payload : LegacyDoc) : LegacyDoc :=
  match mdoc with
  | none => payload
  | some d =>
    { players := mergeField payload.players d.players,
      storyWords := mergeField payload.storyWords d.storyWords,
      activePlayerIndex := mergeField payload.activePlayerIndex d.activePlayerIndex,
      updatedAt := mergeField payload.updatedAt d.updatedAt }

/-- The upsert inside the lib variant's `addPlayerToSession`. -/
def upsertPlayer (ps : List Player) (player : Player) : List Player :=
  match ps.findIdx? fun p => p.id == player.id with
  | some existingIndex => ps.set existingIndex player
  | none => ps ++ [player]

/-- Embedding of `addPlayerToSession` of the lib variant: same transform, but the
payload carries no `playerIds`. -/
def addPlayerToSession (mdoc : Option LegacyDoc) (player : Player) : LegacyDoc :=
  let data := mdoc.getD emptySession
  let nextPlayers := upsertPlayer (data.players.getD []) player
  let norm := normalizePlayers nextPlayers (data.activePlayerIndex.getD 0)
  applyMerge mdoc
    { players := some norm.1, storyWords := data.storyWords,
      activePlayerIndex := some norm.2, updatedAt := some () }

/-- Embedding of `addWordToSession` of the lib variant. -/
def addWordToSession (mdoc : Option LegacyDoc) (word : String) : LegacyDoc :=
  let data := mdoc.getD emptySession
  let norm := normalizePlayers (data.players.getD []) (data.activePlayerIndex.getD 0)
  let nextWords := (data.storyWords.getD []) ++ [jsTrim word]
  let nextActiveIndex : Int :=
    if norm.1.length == 0 then 0 else Int.tmod (norm.2 + 1) (norm.1.length : Int)
  applyMerge mdoc
    { players := some norm.1, storyWords := some nextWords,
      activePlayerIndex := some nextActiveIndex, updatedAt := some () }

end StorySessionLib

example :
    normalizePlayers [⟨"u1", " Amy "⟩, ⟨"", "Bob"⟩, ⟨"u2", "  "⟩] 2 =
      ([⟨"u1", "Amy"⟩], 0) := by decide

example : mergePlayerIds [⟨"a", "A"⟩, ⟨"", "B"⟩, ⟨"a", "C"⟩, ⟨"b", "D"⟩] = ["a", "b"] := by
  decide

/-! ### Lemmas about `jsTrim` -/

theorem jsTrimList_eq_rdropWhile (l : List Char) :
    jsTrimList l = List.rdropWhile isJsWs (List.dropWhile isJsWs l) := rfl

/-- Dropping a leading block of `p`-elements from a list whose head is
already not a `p`-element changes nothing, even after a right-trim. -/
theorem dropWhile_rdropWhile_eq_self (p : α → Bool) (l : List α)
    (h : List.dropWhile p l = l) :
    List.dropWhile p (List.rdropWhile p l) = List.rdropWhile p l := by
  rw [List.dropWhile_eq_self_iff] at h ⊢
  intro hl
  have hpre := List.rdropWhile_prefix p l
  have hl0 : 0 < l.length := lt_of_lt_of_le hl hpre.length_le
  have hget : (List.rdropWhile p l)[0] = l[0] := hpre.getElem hl
  have h0 := h hl0
  simpa [List.get_eq_getElem, hget] using h0

theorem jsTrimList_idem (l : List Char) :
    jsTrimList (jsTrimList l) = jsTrimList l := by
  rw [jsTrimList_eq_rdropWhile, jsTrimList_eq_rdropWhile,
    dropWhile_rdropWhile_eq_self isJsWs _ (List.dropWhile_idempotent _ _),
    List.rdropWhile_idempotent]

theorem jsTrim_idem (s : String) : jsTrim (jsTrim s) = jsTrim s := by
  show String.mk (jsTrimList (String.mk (jsTrimList s.toList)).toList) = _
  rw [show (String.mk (jsTrimList s.toList)).toList = jsTrimList s.toList from rfl,
    jsTrimList_idem]
  rfl

/-! ### Lemmas about `normalizePlayers` -/

theorem normalizePlayers_fst (ps : List Player) (i : Int) :
    (normalizePlayers ps i).1 =
      (ps.filter fun p => p.id != "" && jsTrim p.name != "").map
        fun p => { p with name := jsTrim p.name } := rfl

theorem normalizePlayers_snd (ps : List Player) (i : Int) :
    (normalizePlayers ps i).2 =
      if (normalizePlayers ps i).1.length == 0 then 0
      else min i (((normalizePlayers ps i).1.length : Int) - 1) := rfl

/-- Every player surviving normalization has a non-empty id and a
non-blank, already-trimmed name. -/
theorem mem_normalizePlayers (ps : List Player) (i : Int) (p : Player)
    (hp : p ∈ (normalizePlayers ps i).1) :
    p.id ≠ "" ∧ p.name ≠ "" ∧ p.name = jsTrim p.name := by
  rw [normalizePlayers_fst] at hp
  simp only [List.mem_map, List.mem_filter] at hp
  obtain ⟨q, ⟨hq, hfil⟩, hpq⟩ := hp
  rw [Bool.and_eq_true, bne_iff_ne, bne_iff_ne] at hfil
  subst hpq
  exact ⟨hfil.1, hfil.2, (jsTrim_idem q.name).symm⟩

theorem map_eq_self_of (f : α → α) (l : List α)
    (h : ∀ a ∈ l, f a = a) : l.map f = l := by
  induction l with
  | nil => rfl
  | cons x xs ih =>
    rw [List.map_cons, h x (List.mem_cons_self x xs),
      ih fun a ha => h a (List.mem_cons_of_mem x ha)]

/-- Re-normalizing a normalized players list leaves it unchanged. -/
theorem clean_of_clean (ps : List Player) (i j : Int) :
    (normalizePlayers (normalizePlayers ps i).1 j).1 = (normalizePlayers ps i).1 := by
  rw [normalizePlayers_fst ((normalizePlayers ps i).1) j]
  have hfil : ((normalizePlayers ps i).1.filter
      fun p => p.id != "" && jsTrim p.name != "") = (normalizePlayers ps i).1 := by
    rw [List.filter_eq_self]
    intro a ha
    obtain ⟨h1, h2, h3⟩ := mem_normalizePlayers ps i a ha
    rw [Bool.and_eq_true, bne_iff_ne, bne_iff_ne]
    exact ⟨h1, by rw [← h3]; exact h2⟩
  rw [hfil]
  apply map_eq_self_of
  intro a ha
  obtain ⟨h1, h2, h3⟩ := mem_normalizePlayers ps i a ha
  cases a with
  | mk aid aname =>
    simp only [Player.mk.injEq]
    exact ⟨trivial, h3.symm⟩

/-- C9: normalization is idempotent — normalizing the output of
`normalizePlayers` (both the cleaned players and the clamped index)
returns it unchanged. -/
theorem c9_normalize_idempotent (ps : List Player) (i : Int) :
    normalizePlayers (normalizePlayers ps i).1 (normalizePlayers ps i).2 =
      normalizePlayers ps i := by
  have hfst := clean_of_clean ps i ((normalizePlayers ps i).2)
  apply Prod.ext hfst
  rw [normalizePlayers_snd ((normalizePlayers ps i).1) ((normalizePlayers ps i).2), hfst]
  by_cases h : (normalizePlayers ps i).1.length = 0
  · rw [if_pos (by simpa using h), normalizePlayers_snd ps i,
      if_pos (by simpa using h)]
  · rw [if_neg (by simpa using h), normalizePlayers_snd ps i,
      if_neg (by simpa using h), min_assoc, min_self]

/-- C1 (amended): for a non-negative input index, the normalized index is
a valid index into the normalized players when they are non-empty, and `0`
when they are empty.  (The code clamps only from above, so this needs the
non-negativity hypothesis — see the counterexample.) -/
theorem c1_clamp_nonneg (ps : List Player) (i : Int) (h : 0 ≤ i) :
    ((normalizePlayers ps i).1 = [] → (normalizePlayers ps i).2 = 0) ∧
    ((normalizePlayers ps i).1 ≠ [] →
      0 ≤ (normalizePlayers ps i).2 ∧
        (normalizePlayers ps i).2 < ((normalizePlayers ps i).1.length : Int)) := by
  constructor
  · intro he
    rw [normalizePlayers_snd, he]
    rfl
  · intro hne
    have hL : 0 < (normalizePlayers ps i).1.length := List.length_pos.mpr hne
    rw [normalizePlayers_snd, if_neg (by simp only [beq_iff_eq]; omega)]
    refine ⟨le_min h (by omega), ?_⟩
    have := min_le_right i (((normalizePlayers ps i).1.length : Int) - 1)
    omega

/-- C1 counterexample: with one valid player and input index `-1`, the
"clamped" index stays `-1`, which is below `0` — the claimed lower clamp
does not exist in the code (`Math.min` only bounds from above). -/
theorem c1_counterexample :
    (normalizePlayers [⟨"u1", "Amy"⟩] (-1)).1 = [⟨"u1", "Amy"⟩] ∧
    (normalizePlayers [⟨"u1", "Amy"⟩] (-1)).2 = -1 ∧
    ¬ (0 ≤ (normalizePlayers [⟨"u1", "Amy"⟩] (-1)).2) := by decide

/-- C1 witness: the amended clamp theorem applied at index `5` on one
player. -/
theorem c1_witness :
    (0 : Int) ≤ 5 ∧
    (((normalizePlayers [⟨"u1", "Amy"⟩] 5).1 = [] →
        (normalizePlayers [⟨"u1", "Amy"⟩] 5).2 = 0) ∧
     ((normalizePlayers [⟨"u1", "Amy"⟩] 5).1 ≠ [] →
        0 ≤ (normalizePlayers [⟨"u1", "Amy"⟩] 5).2 ∧
          (normalizePlayers [⟨"u1", "Amy"⟩] 5).2 <
            ((normalizePlayers [⟨"u1", "Amy"⟩] 5).1.length : Int))) :=
  ⟨by decide, c1_clamp_nonneg [⟨"u1", "Amy"⟩] 5 (by decide)⟩

/-! ### Field-level descriptions of the write operations -/

theorem addPlayer_players (mdoc : Option StorySessionDoc) (player : Player) :
    (addPlayerToSession mdoc player).players =
      some (normalizePlayers
        (upsertPlayer ((mdoc.getD emptySession).players.getD []) player)
        ((mdoc.getD emptySession).activePlayerIndex.getD 0)).1 := by
  cases mdoc <;> rfl

theorem addPlayer_activeIndex (mdoc : Option StorySessionDoc) (player : Player) :
    (addPlayerToSession mdoc player).activePlayerIndex =
      some (normalizePlayers
        (upsertPlayer ((mdoc.getD emptySession).players.getD []) player)
        ((mdoc.getD emptySession).activePlayerIndex.getD 0)).2 := by
  cases mdoc <;> rfl

theorem addPlayer_playerIds (mdoc : Option StorySessionDoc) (player : Player) :
    (addPlayerToSession mdoc player).playerIds =
      some (mergePlayerIds (normalizePlayers
        (upsertPlayer ((mdoc.getD emptySession).players.getD []) player)
        ((mdoc.getD emptySession).activePlayerIndex.getD 0)).1) := by
  cases mdoc <;> rfl

theorem addWord_players (mdoc : Option StorySessionDoc) (word : String) :
    (addWordToSession mdoc word).players =
      some (normalizePlayers ((mdoc.getD emptySession).players.getD [])
        ((mdoc.getD emptySession).activePlayerIndex.getD 0)).1 := by
  cases mdoc <;> rfl

theorem addWord_storyWords (mdoc : Option StorySessionDoc) (word : String) :
    (addWordToSession mdoc word).storyWords =
      some (((mdoc.getD emptySession).storyWords.getD []) ++ [jsTrim word]) := by
  cases mdoc <;> rfl

theorem addWord_activeIndex (mdoc : Option StorySessionDoc) (word : String) :
    (addWordToSession mdoc word).activePlayerIndex =
      some (if (normalizePlayers ((mdoc.getD emptySession).players.getD [])
          ((mdoc.getD emptySession).activePlayerIndex.getD 0)).1.length == 0 then 0
        else Int.tmod
          ((normalizePlayers ((mdoc.getD emptySession).players.getD [])
            ((mdoc.getD emptySession).activePlayerIndex.getD 0)).2 + 1)
          ((normalizePlayers ((mdoc.getD emptySession).players.getD [])
            ((mdoc.getD emptySession).activePlayerIndex.getD 0)).1.length : Int)) := by
  cases mdoc <;> rfl

theorem addWord_playerIds (mdoc : Option StorySessionDoc) (word : String) :
    (addWordToSession mdoc word).playerIds =
      some (mergePlayerIds (normalizePlayers ((mdoc.getD emptySession).players.getD [])
        ((mdoc.getD emptySession).activePlayerIndex.getD 0)).1) := by
  cases mdoc <;> rfl

/-- C5: `reset-story` merge-writes empty `storyWords`, index `0`, and the
`playerIds` derived from an empty player list, and does not write the
`players` field: the stored players stay exactly what they were (and a
document that did not exist gets none). -/
theorem c5_reset_story_frame (mdoc : Option StorySessionDoc) :
    (resetSessionStory mdoc).storyWords = some [] ∧
    (resetSessionStory mdoc).activePlayerIndex = some 0 ∧
    (resetSessionStory mdoc).playerIds = some (mergePlayerIds []) ∧
    mergePlayerIds [] = [] ∧
    (resetSessionStory mdoc).players = mdoc.bind StorySessionDoc.players := by
  cases mdoc <;> exact ⟨rfl, rfl, rfl, rfl, rfl⟩

/-- C7: when the document exists, `ensure-exists` performs no write and
the stored state is unchanged, whatever the seed; when it is absent it
writes the seed spread over the empty-session default, with `playerIds`
derived from the seed's players. -/
theorem c7_ensure_exists (d : StorySessionDoc) (seed : SessionSeed) :
    ensureWrite (some d) seed = none ∧
    ensureSessionExists (some d) seed = some d ∧
    ensureSessionExists none seed = some
      { players := some (seed.players.getD []),
        storyWords := some (seed.storyWords.getD []),
        activePlayerIndex := some (seed.activePlayerIndex.getD 0),
        playerIds := some (mergePlayerIds (seed.players.getD [])),
        updatedAt := some () } :=
  ⟨rfl, rfl, rfl⟩

/-- C4: exhibit of the claimed invariant failing — after `reset-story` on
a session holding one player, the stored `playerIds` is `[]` while the
stored players still contain that player, so `playerIds` is not the set of
ids present in `players`. -/
theorem c4_reset_breaks_playerIds :
    (resetSessionStory (some ⟨some [⟨"u1", "Amy"⟩], some ["once"], some 0,
        some ["u1"], some ()⟩)).players = some [⟨"u1", "Amy"⟩] ∧
    (resetSessionStory (some ⟨some [⟨"u1", "Amy"⟩], some ["once"], some 0,
        some ["u1"], some ()⟩)).playerIds = some [] ∧
    ¬ (((resetSessionStory (some ⟨some [⟨"u1", "Amy"⟩], some ["once"], some 0,
          some ["u1"], some ()⟩)).playerIds.getD []).toFinset =
        (((resetSessionStory (some ⟨some [⟨"u1", "Amy"⟩], some ["once"], some 0,
          some ["u1"], some ()⟩)).players.getD []).map Player.id).toFinset) := by
  decide

/-! ### The upsert of `addPlayerToSession` -/

/-- A list's `findIdx?` finds exactly the first index satisfying the predicate. -/
theorem findIdx?_eq_some_of_first (p : α → Bool) (l : List α) (i : Nat)
    (hi : i < l.length) (hp : p (l.get ⟨i, hi⟩) = true)
    (hmin : ∀ j (hj : j < l.length), j < i → p (l.get ⟨j, hj⟩) = false) :
    l.findIdx? p = some i := by
  induction l generalizing i with
  | nil => simp at hi
  | cons x xs ih =>
    cases i with
    | zero =>
      rw [List.findIdx?_cons, if_pos (show p x = true from hp)]
    | succ k =>
      have hx : p x = false := hmin 0 (Nat.succ_pos _) (Nat.succ_pos _)
      rw [List.findIdx?_cons, if_neg (by simp [hx]), List.findIdx?_succ]
      have hk : xs.findIdx? p = some k := by
        refine ih k (Nat.lt_of_succ_lt_succ hi) hp ?_
        intro j hj hjk
        exact hmin (j + 1) (Nat.succ_lt_succ hj) (Nat.succ_lt_succ hjk)
      rw [hk]
      rfl

theorem upsertPlayer_append (ps : List Player) (player : Player)
    (h : ∀ q ∈ ps, q.id ≠ player.id) :
    upsertPlayer ps player = ps ++ [player] := by
  have hfi : (ps.findIdx? fun p => p.id == player.id) = none :=
    List.findIdx?_eq_none_iff.mpr fun q hq => beq_eq_false_iff_ne.mpr (h q hq)
  simp [upsertPlayer, hfi]

theorem upsertPlayer_set (ps : List Player) (player : Player) (i : Nat)
    (hi : i < ps.length) (hp : (ps.get ⟨i, hi⟩).id = player.id)
    (hmin : ∀ j (hj : j < ps.length), j < i → (ps.get ⟨j, hj⟩).id ≠ player.id) :
    upsertPlayer ps player = ps.set i player := by
  have hfi : (ps.findIdx? fun p => p.id == player.id) = some i :=
    findIdx?_eq_some_of_first _ ps i hi (beq_iff_eq.mpr hp)
      fun j hj hjk => beq_eq_false_iff_ne.mpr (hmin j hj hjk)
  simp [upsertPlayer, hfi]

/-! ### Membership in `mergePlayerIds` -/

theorem mem_jsSetOfList (l : List String) (seen : List String) (x : String) :
    x ∈ jsSetOfList seen l ↔ x ∈ l ∧ x ∉ seen := by
  induction l generalizing seen with
  | nil => simp [jsSetOfList]
  | cons y ys ih =>
    by_cases hy : y ∈ seen
    · rw [jsSetOfList, if_pos hy, ih]
      constructor
      · rintro ⟨hx, hxs⟩
        exact ⟨List.mem_cons_of_mem _ hx, hxs⟩
      · rintro ⟨hx, hxs⟩
        rcases List.mem_cons.mp hx with rfl | hx
        · exact absurd hy hxs
        · exact ⟨hx, hxs⟩
    · rw [jsSetOfList, if_neg hy]
      simp only [List.mem_cons, ih]
      constructor
      · rintro (rfl | ⟨hx, hxs⟩)
        · exact ⟨Or.inl rfl, hy⟩
        · exact ⟨Or.inr hx, fun hc => hxs (Or.inr hc)⟩
      · rintro ⟨rfl | hx, hxs⟩
        · exact Or.inl rfl
        · by_cases hxy : x = y
          · exact Or.inl hxy
          · exact Or.inr ⟨hx, fun hc => hc.elim hxy hxs⟩

theorem mem_mergePlayerIds (ps : List Player) (x : String) :
    x ∈ mergePlayerIds ps ↔ x ∈ ps.map Player.id ∧ x ≠ "" := by
  rw [mergePlayerIds, mem_jsSetOfList]
  simp [List.mem_filter, bne_iff_ne]

/-- On a list of players whose ids are all non-empty, `mergePlayerIds`
computes exactly the set of ids. -/
theorem mergePlayerIds_toFinset (ps : List Player)
    (h : ∀ p ∈ ps, p.id ≠ "") :
    (mergePlayerIds ps).toFinset = (ps.map Player.id).toFinset := by
  ext x
  simp only [List.mem_toFinset, mem_mergePlayerIds]
  constructor
  · exact fun hx => hx.1
  · intro hx
    refine ⟨hx, ?_⟩
    obtain ⟨p, hp, rfl⟩ := List.mem_map.mp hx
    exact h p hp

/-- C3: `add-player` upserts keyed by id — if no stored player has the
incoming id it is appended, and if the first stored player with that id
sits at position `i` it is overwritten in place at `i`; the result stored
in `players` is the renormalization of that upserted list, and the stored
`playerIds` equals (as a set) the ids of the resulting players. -/
theorem c3_add_player (mdoc : Option StorySessionDoc) (player : Player) :
    ((∀ q ∈ (mdoc.getD emptySession).players.getD [], q.id ≠ player.id) →
      (addPlayerToSession mdoc player).players =
        some (normalizePlayers
          (((mdoc.getD emptySession).players.getD []) ++ [player])
          ((mdoc.getD emptySession).activePlayerIndex.getD 0)).1) ∧
    (∀ i : Nat, ∀ hi : i < ((mdoc.getD emptySession).players.getD []).length,
      (((mdoc.getD emptySession).players.getD []).get ⟨i, hi⟩).id = player.id →
      (∀ j : Nat, ∀ hj : j < ((mdoc.getD emptySession).players.getD []).length,
        j < i → (((mdoc.getD emptySession).players.getD []).get ⟨j, hj⟩).id ≠ player.id) →
      (addPlayerToSession mdoc player).players =
        some (normalizePlayers
          ((((mdoc.getD emptySession).players.getD []).set i player))
          ((mdoc.getD emptySession).activePlayerIndex.getD 0)).1) ∧
    ((addPlayerToSession mdoc player).playerIds.getD []).toFinset =
      (((addPlayerToSession mdoc player).players.getD []).map Player.id).toFinset := by
  refine ⟨?_, ?_, ?_⟩
  · intro h
    rw [addPlayer_players, upsertPlayer_append _ _ h]
  · intro i hi hp hmin
    rw [addPlayer_players, upsertPlayer_set _ _ i hi hp hmin]
  · rw [addPlayer_playerIds, addPlayer_players, Option.getD_some, Option.getD_some]
    exact mergePlayerIds_toFinset _ fun p hp => (mem_normalizePlayers _ _ p hp).1

/-- C3 witness: re-adding id `u1` with a new (untrimmed) name overwrites
the stored `u1` entry in place. -/
theorem c3_witness :
    (addPlayerToSession
      (some ⟨some [⟨"u1", "Old"⟩], some [], some 0, some ["u1"], none⟩)
      ⟨"u1", " New "⟩).players = some [⟨"u1", "New"⟩] := by
  have h := (c3_add_player
      (some ⟨some [⟨"u1", "Old"⟩], some [], some 0, some ["u1"], none⟩)
      ⟨"u1", " New "⟩).2.1 0 (by decide) (by decide)
      (by intro j hj hj0; omega)
  rw [h]
  decide

/-- C6 counterexample: `ensure-exists` from a seed whose player name is
untrimmed stores that name verbatim, so the stored players are not all
trimmed after this write operation. -/
theorem c6_counterexample :
    ((ensureSessionExists none ⟨some [⟨"u1", " Amy "⟩], none, none, none⟩).getD
        emptySession).players = some [⟨"u1", " Amy "⟩] ∧
    " Amy " ≠ jsTrim " Amy " := by decide

/-- C6 (amended): after `add-player` and `add-word` every stored player
has a non-empty id and a non-blank name stored trimmed; `ensure-exists`,
however, writes the seed's players verbatim (no trim, no filter), so the
invariant holds for its write only when the seed players are already
normalized. -/
theorem c6_players_normalized (mdoc : Option StorySessionDoc) (player : Player)
    (word : String) :
    (∀ p ∈ (addPlayerToSession mdoc player).players.getD [],
      p.id ≠ "" ∧ p.name ≠ "" ∧ p.name = jsTrim p.name) ∧
    (∀ p ∈ (addWordToSession mdoc word).players.getD [],
      p.id ≠ "" ∧ p.name ≠ "" ∧ p.name = jsTrim p.name) ∧
    (∀ seedPlayers : List Player,
      (ensureWrite none ⟨some seedPlayers, none, none, none⟩).map
        StorySessionDoc.players = some (some seedPlayers)) := by
  refine ⟨?_, ?_, fun seedPlayers => rfl⟩
  · rw [addPlayer_players, Option.getD_some]
    exact fun p hp => mem_normalizePlayers _ _ p hp
  · rw [addWord_players, Option.getD_some]
    exact fun p hp => mem_normalizePlayers _ _ p hp

/-- C6 witness: adding the player `{id:"u1", name:" Amy "}` to an empty
store yields the stored entry `{id:"u1", name:"Amy"}`, which satisfies the
normalization properties. -/
theorem c6_witness :
    (⟨"u1", "Amy"⟩ : Player) ∈ (addPlayerToSession none ⟨"u1", " Amy "⟩).players.getD [] ∧
    (("u1" : String) ≠ "" ∧ ("Amy" : String) ≠ "" ∧ "Amy" = jsTrim "Amy") :=
  ⟨by decide,
    (c6_players_normalized none ⟨"u1", " Amy "⟩ "w").1 ⟨"u1", "Amy"⟩ (by decide)⟩

/-! ### The turn-advance of `addWordToSession` -/

theorem normalizePlayers_snd_bounds (ps : List Player) (i : Int) (h : 0 ≤ i)
    (hne : (normalizePlayers ps i).1 ≠ []) :
    0 ≤ (normalizePlayers ps i).2 ∧
      (normalizePlayers ps i).2 < ((normalizePlayers ps i).1.length : Int) := by
  have hL : 0 < (normalizePlayers ps i).1.length := List.length_pos.mpr hne
  rw [normalizePlayers_snd, if_neg (by simp only [beq_iff_eq]; omega)]
  refine ⟨le_min h (by omega), ?_⟩
  have := min_le_right i (((normalizePlayers ps i).1.length : Int) - 1)
  omega

/-- C2 (amended): `add-word` always appends the trimmed word to
`storyWords`; provided the stored `activePlayerIndex` is non-negative (so
that the normalized current index is in range), the new index is exactly
`(currentIndex + 1) mod N` for `N > 0` normalized players — in particular
it is again in `[0, N)` — and stays `0` when there are no players.  (For a
negative stored index the JS remainder can differ from the mathematical
`mod` — see the counterexample.) -/
theorem c2_add_word (mdoc : Option StorySessionDoc) (word : String)
    (ps : List Player) (cur : Int)
    (hnorm : normalizePlayers ((mdoc.getD emptySession).players.getD [])
      ((mdoc.getD emptySession).activePlayerIndex.getD 0) = (ps, cur))
    (h : 0 ≤ (mdoc.getD emptySession).activePlayerIndex.getD 0) :
    (addWordToSession mdoc word).storyWords =
      some (((mdoc.getD emptySession).storyWords.getD []) ++ [jsTrim word]) ∧
    (ps ≠ [] →
      (addWordToSession mdoc word).activePlayerIndex =
        some ((cur + 1) % (ps.length : Int)) ∧
      0 ≤ (cur + 1) % (ps.length : Int) ∧
      (cur + 1) % (ps.length : Int) < (ps.length : Int)) ∧
    (ps = [] → (addWordToSession mdoc word).activePlayerIndex = some 0) := by
  refine ⟨addWord_storyWords mdoc word, ?_, ?_⟩
  · intro hne
    have hcur : 0 ≤ cur := by
      have := (normalizePlayers_snd_bounds
        ((mdoc.getD emptySession).players.getD [])
        ((mdoc.getD emptySession).activePlayerIndex.getD 0) h
        (by rw [hnorm]; exact hne)).1
      rwa [hnorm] at this
    have hL : 0 < ps.length := List.length_pos.mpr hne
    have hLi : (0 : Int) < (ps.length : Int) := by exact_mod_cast hL
    refine ⟨?_, Int.emod_nonneg _ (by omega), Int.emod_lt_of_pos _ hLi⟩
    rw [addWord_activeIndex, hnorm]
    have hcond : (ps.length == 0) = false := by
      simp only [beq_eq_false_iff_ne]
      omega
    rw [if_neg (by simp [hcond])]
    rw [Int.tmod_eq_emod (by omega) (by omega)]
  · intro he
    rw [addWord_activeIndex, hnorm, he]
    rfl

/-- C2 counterexample: with two valid players and stored index `-4` the
normalized current index is `-4`; the code's JS remainder produces `-1`,
while `(currentIndex + 1) mod 2` is `1` — the claim's formula fails and
the resulting index is not even in range. -/
theorem c2_counterexample :
    (normalizePlayers [⟨"a", "A"⟩, ⟨"b", "B"⟩] (-4)).2 = -4 ∧
    (addWordToSession
      (some ⟨some [⟨"a", "A"⟩, ⟨"b", "B"⟩], some [], some (-4), none, none⟩)
      "cat").activePlayerIndex = some (-1) ∧
    ((-4 : Int) + 1) % 2 = 1 ∧ ((-1 : Int) ≠ 1) := by decide

/-- C2 witness: the amended theorem applied to a two-player session at
index `0` with the word `" cat "`. -/
theorem c2_witness :
    (normalizePlayers
      (((some (⟨some [⟨"a", "A"⟩, ⟨"b", "B"⟩], some ["x"], some 0, none,
        none⟩ : StorySessionDoc)).getD emptySession).players.getD [])
      (((some (⟨some [⟨"a", "A"⟩, ⟨"b", "B"⟩], some ["x"], some 0, none,
        none⟩ : StorySessionDoc)).getD emptySession).activePlayerIndex.getD 0) =
      ([⟨"a", "A"⟩, ⟨"b", "B"⟩], 0)) ∧
    (0 : Int) ≤ 0 ∧
    (addWordToSession
      (some ⟨some [⟨"a", "A"⟩, ⟨"b", "B"⟩], some ["x"], some 0, none, none⟩)
      " cat ").storyWords = some ["x", "cat"] ∧
    (addWordToSession
      (some ⟨some [⟨"a", "A"⟩, ⟨"b", "B"⟩], some ["x"], some 0, none, none⟩)
      " cat ").activePlayerIndex = some 1 := by
  have h := c2_add_word
    (some ⟨some [⟨"a", "A"⟩, ⟨"b", "B"⟩], some ["x"], some 0, none, none⟩)
    " cat " [⟨"a", "A"⟩, ⟨"b", "B"⟩] 0 (by decide) (by decide)
  refine ⟨by decide, by decide, ?_, ?_⟩
  · rw [h.1]
    decide
  · rw [(h.2.1 (by decide)).1]
    decide

/-- C8: when the indexed `playerIds` membership query returns no
documents, `list-for-user` falls back to the full scan and returns exactly
the formatted documents whose normalized players contain a player with the
queried id — so a document lacking `playerIds` whose players include the
user is still returned. -/
theorem c8_fallback_scan (store : List (String × StorySessionDoc)) (userId : String)
    (h : store.filter (fun e => (e.2.playerIds.getD []).contains userId) = []) :
    getSessionsForUser store userId =
      (store.map formatSessionDoc).filter
        (fun s => s.players.any fun p => p.id == userId) ∧
    ∀ s, s ∈ getSessionsForUser store userId ↔
      ((∃ e ∈ store, formatSessionDoc e = s) ∧ ∃ p ∈ s.players, p.id = userId) := by
  have hmain : getSessionsForUser store userId =
      (store.map formatSessionDoc).filter
        (fun s => s.players.any fun p => p.id == userId) := by
    simp only [getSessionsForUser, h, List.map_nil, List.length_nil]
    rfl
  refine ⟨hmain, fun s => ?_⟩
  rw [hmain, List.mem_filter]
  simp only [List.mem_map, List.any_eq_true, beq_iff_eq]

/-- C8 witness: a single legacy document without `playerIds` whose players
include `u9` misses the index query but is returned by the fallback. -/
theorem c8_witness :
    ([("s1", (⟨some [⟨"u9", "Amy"⟩], some [], some 0, none, none⟩ :
        StorySessionDoc))].filter
      (fun e => (e.2.playerIds.getD []).contains "u9") = []) ∧
    getSessionsForUser
        [("s1", ⟨some [⟨"u9", "Amy"⟩], some [], some 0, none, none⟩)] "u9" =
      ([("s1", (⟨some [⟨"u9", "Amy"⟩], some [], some 0, none, none⟩ :
          StorySessionDoc))].map formatSessionDoc).filter
        (fun s => s.players.any fun p => p.id == "u9") :=
  ⟨by decide,
    (c8_fallback_scan
      [("s1", ⟨some [⟨"u9", "Amy"⟩], some [], some 0, none, none⟩)] "u9"
      (by decide)).1⟩

/-- C10: on any prior document state (shared `players`, `storyWords`,
`activePlayerIndex` fields, present or absent document alike) and any
input, the two source variants of `addPlayerToSession` and
`addWordToSession` write identical `players`, `storyWords` and
`activePlayerIndex`, differing only in the `playerIds` bookkeeping. -/
theorem c10_variants_agree (pl : Option (List Player)) (sw : Option (List String))
    (ai : Option Int) (pids : Option (List String)) (u1 u2 : Option Unit)
    (player : Player) (word : String) :
    ((addPlayerToSession (some ⟨pl, sw, ai, pids, u1⟩) player).players =
        (StorySessionLib.addPlayerToSession (some ⟨pl, sw, ai, u2⟩) player).players ∧
      (addPlayerToSession (some ⟨pl, sw, ai, pids, u1⟩) player).storyWords =
        (StorySessionLib.addPlayerToSession (some ⟨pl, sw, ai, u2⟩) player).storyWords ∧
      (addPlayerToSession (some ⟨pl, sw, ai, pids, u1⟩) player).activePlayerIndex =
        (StorySessionLib.addPlayerToSession (some ⟨pl, sw, ai, u2⟩) player).activePlayerIndex) ∧
    ((addWordToSession (some ⟨pl, sw, ai, pids, u1⟩) word).players =
        (StorySessionLib.addWordToSession (some ⟨pl, sw, ai, u2⟩) word).players ∧
      (addWordToSession (some ⟨pl, sw, ai, pids, u1⟩) word).storyWords =
        (StorySessionLib.addWordToSession (some ⟨pl, sw, ai, u2⟩) word).storyWords ∧
      (addWordToSession (some ⟨pl, sw, ai, pids, u1⟩) word).activePlayerIndex =
        (StorySessionLib.addWordToSession (some ⟨pl, sw, ai, u2⟩) word).activePlayerIndex) ∧
    ((addPlayerToSession none player).players =
        (StorySessionLib.addPlayerToSession none player).players ∧
      (addPlayerToSession none player).storyWords =
        (StorySessionLib.addPlayerToSession none player).storyWords ∧
      (addPlayerToSession none player).activePlayerIndex =
        (StorySessionLib.addPlayerToSession none player).activePlayerIndex) ∧
    ((addWordToSession none word).players =
        (StorySessionLib.addWordToSession none word).players ∧
      (addWordToSession none word).storyWords =
        (StorySessionLib.addWordToSession none word).storyWords ∧
      (addWordToSession none word).activePlayerIndex =
        (StorySessionLib.addWordToSession none word).activePlayerIndex) :=
  ⟨⟨rfl, rfl, rfl⟩, ⟨rfl, rfl, rfl⟩, ⟨rfl, rfl, rfl⟩, ⟨rfl, rfl, rfl⟩⟩
